import Mathlib

/-
Verification of the Smart Facts dashboard builder (build_dashboard.py).

The program has two parts:
  * a Python resolver (extract_smart_facts_from_codebase, extract_from_files,
    get_hardcoded_insights) that produces the base insight sequence;
  * a JavaScript view engine embedded in the generated HTML
    (smartFactsDashboard: filteredInsights, stats, exportToCSV).

Both are shallowly embedded below.  JavaScript strings are modelled as Lean
strings; `toLowerCase` is modelled character-wise by Char.toLower (ASCII);
`String.prototype.includes` is modelled by an executable substring check;
operations that can throw are modelled in Except.
-/

namespace SmartFacts

/-- Call-to-action record: the `cta` object literal {text, url}. -/
structure CTA where
  text : String
  url : String
deriving DecidableEq, Repr

/-- Insight record, with the fields of the JSON objects embedded in the page.
The view engine guards `cta`, `requiredContext` and `templateKeys` with
truthiness checks, so they may be absent: Option models a missing key. -/
structure Insight where
  id : String
  content : String
  status : String
  priority : Int
  isDynamic : Bool
  hasCta : Bool
  cta : Option CTA
  requiredContext : Option (List String)
  requiresPrimaryUser : Bool
  requiresProfileComplete : Bool
  templateKeys : Option (List String)
deriving DecidableEq, Repr

/-- Model of JavaScript `toLowerCase` (character-wise ASCII lowering). -/
def lowerStr (s : String) : String := ⟨s.data.map Char.toLower⟩

/-- Helper for the substring check: does `as` occur at the very front of `bs`. -/
def prefixAt : List Char → List Char → Bool
  | [], _ => true
  | _ :: _, [] => false
  | a :: as, b :: bs => a == b && prefixAt as bs

/-- Model of JavaScript `String.prototype.includes`: the needle occurs as a
contiguous substring of the haystack (checked at every start position). -/
def containsSub : List Char → List Char → Bool
  | needle, [] => needle.isEmpty
  | needle, b :: bs => prefixAt needle (b :: bs) || containsSub needle bs

/-- Wrapper over strings: `strIncludes hay needle` models `hay.includes(needle)`. -/
def strIncludes (hay needle : String) : Bool := containsSub needle.data hay.data

/-- Specification-side notion used by the claims: `needle` occurs in `hay` as a
case-insensitive substring. -/
def ContainsCI (hay needle : String) : Prop :=
  ∃ pre post, (lowerStr hay).data = pre ++ (lowerStr needle).data ++ post

/-- State of the Alpine.js component returned by smartFactsDashboard(). -/
structure DashboardState where
  searchQuery : String
  statusFilter : String
  typeFilter : String
  viewMode : String
  insights : List Insight
deriving Repr

/-- The matchesSearch conjunct of the filter predicate:
`!this.searchQuery || id.toLowerCase().includes(q) || content.toLowerCase().includes(q)`. -/
def matchesSearch (s : DashboardState) (i : Insight) : Bool :=
  (s.searchQuery == "") ||
    strIncludes (lowerStr i.id) (lowerStr s.searchQuery) ||
    strIncludes (lowerStr i.content) (lowerStr s.searchQuery)

/-- The matchesStatus conjunct: `!this.statusFilter || insight.status === this.statusFilter`. -/
def matchesStatus (s : DashboardState) (i : Insight) : Bool :=
  (s.statusFilter == "") || (i.status == s.statusFilter)

/-- The matchesType conjunct: `!this.typeFilter ||
(typeFilter === 'static' && !isDynamic) || (typeFilter === 'dynamic' && isDynamic)`. -/
def matchesType (s : DashboardState) (i : Insight) : Bool :=
  (s.typeFilter == "") ||
    ((s.typeFilter == "static") && !i.isDynamic) ||
    ((s.typeFilter == "dynamic") && i.isDynamic)

/-- The whole per-insight predicate of the filter callback. -/
def insightMatches (s : DashboardState) (i : Insight) : Bool :=
  matchesSearch s i && matchesStatus s i && matchesType s i

/-- The filteredInsights getter: `this.insights.filter(insight => ...)`. -/
def filteredInsights (s : DashboardState) : List Insight :=
  s.insights.filter (insightMatches s)

/-- Result record of the stats getter. -/
structure Stats where
  total : Nat
  live : Nat
  review : Nat
  dynamic : Nat
  withCta : Nat
  retired : Nat
deriving DecidableEq, Repr

/-- The stats getter: six counters computed from `this.insights`
(each by `this.insights.filter(...).length`). -/
def stats (s : DashboardState) : Stats where
  total := s.insights.length
  live := (s.insights.filter (fun i => i.status == "live")).length
  review := (s.insights.filter (fun i => i.status == "review")).length
  dynamic := (s.insights.filter (fun i => i.isDynamic)).length
  withCta := (s.insights.filter (fun i => i.hasCta)).length
  retired := (s.insights.filter (fun i => i.status == "retired")).length

/-- Content derivation step 1: `insight.content.replace(/\n/g, ' ')`. -/
def replaceNewlines (s : String) : String :=
  ⟨s.data.map (fun c => if c = '\n' then ' ' else c)⟩

/-- Content derivation step 2: `.replace(/\r/g, '')`. -/
def removeCRs (s : String) : String :=
  ⟨s.data.filter (fun c => !(c == '\r'))⟩

/-- A CSV cell value before serialization.  The row objects hold strings for
every column except Priority, which stays a JavaScript number; the quoting
branch tests `typeof value === 'string'`, so the two kinds must be kept apart. -/
inductive CsvValue where
  | str (s : String)
  | num (n : Int)
deriving DecidableEq, Repr

/-- Model of `value.replace(/"/g, '""')`: every double quote is doubled. -/
def doubleQuotesList : List Char → List Char
  | [] => []
  | c :: cs => if c = '"' then '"' :: '"' :: doubleQuotesList cs else c :: doubleQuotesList cs

/-- String wrapper for doubleQuotesList. -/
def doubleQuotes (s : String) : String := ⟨doubleQuotesList s.data⟩

/-- The quoting branch of exportToCSV for string values: wrap in double quotes,
doubling inner quotes, when the value contains a comma, a quote or a newline. -/
def csvEscape (v : String) : String :=
  if v.data.contains ',' || v.data.contains '"' || v.data.contains '\n' then
    "\"" ++ doubleQuotes v ++ "\""
  else v

/-- Serialization of one cell: strings go through the quoting branch, numbers
are emitted by JavaScript number-to-string conversion. -/
def renderValue : CsvValue → String
  | CsvValue.str v => csvEscape v
  | CsvValue.num n => toString n

/-- Keys of the row object literal, in insertion order; `Object.keys` on the
first row returns exactly this list. -/
def csvHeaders : List String :=
  ["ID", "Status", "Priority", "Type", "Content", "Dynamic Variables",
   "CTA Text", "CTA URL", "Required Context", "Requires Primary User",
   "Requires Profile Complete", "Has CTA"]

/-- Values of the row object built by `this.filteredInsights.map(insight => ...)`,
in the same key order.  Ternary guards on possibly-absent fields become
matches on the Option. -/
def rowValues (i : Insight) : List CsvValue :=
  [CsvValue.str i.id,
   CsvValue.str i.status,
   CsvValue.num i.priority,
   CsvValue.str (if i.isDynamic then "Dynamic" else "Static"),
   CsvValue.str (removeCRs (replaceNewlines i.content)),
   CsvValue.str (match i.templateKeys with
     | some ks => String.intercalate "; " ks
     | none => ""),
   CsvValue.str (match i.cta with
     | some c => c.text
     | none => ""),
   CsvValue.str (match i.cta with
     | some c => c.url
     | none => ""),
   CsvValue.str (match i.requiredContext with
     | some ctx => String.intercalate "; " ctx
     | none => ""),
   CsvValue.str (if i.requiresPrimaryUser then "Yes" else "No"),
   CsvValue.str (if i.requiresProfileComplete then "Yes" else "No"),
   CsvValue.str (if i.hasCta then "Yes" else "No")]

/-- Errors the view engine can throw.  `Object.keys(csvData[0])` on an empty
csvData evaluates `Object.keys(undefined)`, which throws a TypeError. -/
inductive JsError where
  | typeError
deriving DecidableEq, Repr

/-- The exportToCSV method, up to the text handed to the Blob.  The header line
is `Object.keys` of the first row (the literal key order); every row is the
cell values serialized and joined with commas; lines are joined with a single
newline.  With an empty filtered set the header derivation throws. -/
def exportToCSV (s : DashboardState) : Except JsError String :=
  match (filteredInsights s).map rowValues with
  | [] => Except.error JsError.typeError
  | row :: rows =>
      Except.ok (String.intercalate "\n"
        (String.intercalate "," csvHeaders ::
          (row :: rows).map (fun r => String.intercalate "," (r.map renderValue))))

/-
The Python resolver.  The pieces of the environment it consults (the
CODEBASE_PATH variable, os.path.exists, open().read()) are explicit inputs;
reading a file may raise, which Except models.
-/

/-- Environment the resolver runs in. -/
structure Env where
  codebasePathEnv : Option String
  pathExists : String → Bool
  readFile : String → Except String String

/-- The fallback data of get_hardcoded_insights(). -/
def get_hardcoded_insights : List Insight :=
  [{ id := "SMRT1",
     content := "Interest rates can be unpredictable. But there are ways to access your equity without losing your current low mortgage rate.",
     status := "live",
     priority := 1,
     isDynamic := false,
     hasCta := true,
     cta := some { text := "See ways to access equity",
                   url := "https://www.hometap.com/blog/cash-out-refinance-vs-a-home-equity-loan/" },
     requiredContext := some ["SYSTEM"],
     requiresPrimaryUser := false,
     requiresProfileComplete := false,
     templateKeys := some [] }]

/-- Path of the definitions file checked by extract_from_files. -/
def definitions_file (codebase_path : String) : String :=
  codebase_path ++ "/eng_portals/portals/portals/apps/smart_facts/definitions.py"

/-- Path of the display-templates file checked by extract_from_files. -/
def templates_file (codebase_path : String) : String :=
  codebase_path ++ "/eng_portals/portals/portals/apps/smart_facts/display_templates.py"

/-- extract_from_files: when both expected files exist it reads them (each read
may raise) and returns the hardcoded data (the parser is a stub); when either
file is missing the initial empty list is returned unchanged. -/
def extract_from_files (env : Env) (codebase_path : String) : Except String (List Insight) :=
  if env.pathExists (definitions_file codebase_path) &&
     env.pathExists (templates_file codebase_path) then
    match env.readFile (definitions_file codebase_path) with
    | Except.error e => Except.error e
    | Except.ok _ =>
        match env.readFile (templates_file codebase_path) with
        | Except.error e => Except.error e
        | Except.ok _ => Except.ok get_hardcoded_insights
  else
    Except.ok []

/-- The possible_paths list: the environment override first, then the fixed
relative locations.  A missing override contributes nothing (None is falsy). -/
def candidate_paths (env : Env) : List String :=
  match env.codebasePathEnv with
  | some p => [p, "../hometap", "../../hometap", "/tmp/codebase"]
  | none => ["../hometap", "../../hometap", "/tmp/codebase"]

/-- The path-selection loop: first candidate that is truthy (non-empty) and
exists wins. -/
def findCodebasePath (env : Env) : Option String :=
  (candidate_paths env).find? (fun p => !(p == "") && env.pathExists p)

/-- extract_smart_facts_from_codebase: extraction errors are caught by the broad
`except Exception` and replaced by the fallback; with no codebase path the
fallback is returned directly.  The result is always `Except.ok`: the function
never lets an exception escape. -/
def extract_smart_facts_from_codebase (env : Env) : Except String (List Insight) :=
  match findCodebasePath env with
  | some cp =>
      match extract_from_files env cp with
      | Except.ok ins => Except.ok ins
      | Except.error _ => Except.ok get_hardcoded_insights
  | none => Except.ok get_hardcoded_insights

/-
Concrete records used by the claims' example and witness statements.
-/

/-- Example record A of the stats test vector. -/
def insA : Insight where
  id := "A"
  content := ""
  status := "live"
  priority := 0
  isDynamic := false
  hasCta := false
  cta := none
  requiredContext := none
  requiresPrimaryUser := false
  requiresProfileComplete := false
  templateKeys := none

/-- Example record B of the stats test vector. -/
def insB : Insight where
  id := "B"
  content := ""
  status := "retired"
  priority := 0
  isDynamic := true
  hasCta := true
  cta := none
  requiredContext := none
  requiresPrimaryUser := false
  requiresProfileComplete := false
  templateKeys := none

/-- Record with every optional field absent, for the export claims. -/
def bareInsight : Insight where
  id := "B1"
  content := "plain text"
  status := "draft"
  priority := 0
  isDynamic := false
  hasCta := false
  cta := none
  requiredContext := none
  requiresPrimaryUser := false
  requiresProfileComplete := false
  templateKeys := none

/-- Record of the CSV round-trip test vector: content with a comma, quotes and
a newline, and two template keys. -/
def exInsight : Insight where
  id := "EX1"
  content := "Hello, \"World\"\nLine2"
  status := "live"
  priority := 1
  isDynamic := true
  hasCta := false
  cta := none
  requiredContext := none
  requiresPrimaryUser := false
  requiresProfileComplete := false
  templateKeys := some ["x", "y"]

/-- Specification-side filter predicate, written from the claim's wording:
search matches on empty query or a case-insensitive substring of id or
content; status matches on empty filter or exact equality; type matches on
empty filter, or static with isDynamic false, or dynamic with isDynamic true. -/
def MatchesSpec (s : DashboardState) (i : Insight) : Prop :=
  (s.searchQuery = "" ∨ ContainsCI i.id s.searchQuery ∨ ContainsCI i.content s.searchQuery) ∧
  (s.statusFilter = "" ∨ i.status = s.statusFilter) ∧
  (s.typeFilter = "" ∨
    (s.typeFilter = "static" ∧ i.isDynamic = false) ∨
    (s.typeFilter = "dynamic" ∧ i.isDynamic = true))

/-- Environment with a codebase directory that exists but lacks the expected
definitions and display-templates files. -/
def envC7 : Env where
  codebasePathEnv := some "/cb"
  pathExists := fun p => p == "/cb"
  readFile := fun _ => Except.error "unreadable"

/-- Environment where the codebase and both expected files exist but every
file read raises. -/
def envReadFail : Env where
  codebasePathEnv := some "/cb"
  pathExists := fun _ => true
  readFile := fun _ => Except.error "boom"

/-- Environment with no override and no existing path at all. -/
def envNoSource : Env where
  codebasePathEnv := none
  pathExists := fun _ => false
  readFile := fun _ => Except.error "unreadable"

/-
Helper lemmas, shared by the claim theorems below.
-/

/-- Correctness of the prefix check: prefixAt as bs holds exactly when bs
starts with as. -/
theorem prefixAt_iff (as : List Char) : ∀ bs, prefixAt as bs = true ↔ ∃ t, bs = as ++ t := by
  induction as with
  | nil =>
    intro bs
    constructor
    · intro _
      exact ⟨bs, rfl⟩
    · intro _
      rfl
  | cons a as ih =>
    intro bs
    cases bs with
    | nil =>
      constructor
      · intro h
        exact absurd h (by simp [prefixAt])
      · rintro ⟨t, ht⟩
        exact absurd ht (by simp)
    | cons b bs =>
      constructor
      · intro h
        simp only [prefixAt, Bool.and_eq_true, beq_iff_eq] at h
        obtain ⟨hab, h2⟩ := h
        obtain ⟨t, ht⟩ := (ih bs).mp h2
        subst hab
        exact ⟨t, by simp [ht]⟩
      · rintro ⟨t, ht⟩
        rw [List.cons_append] at ht
        injection ht with h1 h2
        simp only [prefixAt, Bool.and_eq_true, beq_iff_eq]
        exact ⟨h1.symm, (ih bs).mpr ⟨t, h2⟩⟩

/-- Correctness of the substring check: containsSub needle hay holds exactly
when hay splits as pre ++ needle ++ post. -/
theorem containsSub_iff (needle : List Char) :
    ∀ hay, containsSub needle hay = true ↔ ∃ pre post, hay = pre ++ needle ++ post := by
  intro hay
  induction hay with
  | nil =>
    simp only [containsSub, List.isEmpty_iff]
    constructor
    · intro h
      exact ⟨[], [], by simp [h]⟩
    · rintro ⟨pre, post, h⟩
      rcases List.append_eq_nil.mp h.symm with ⟨h1, _⟩
      rcases List.append_eq_nil.mp h1 with ⟨_, h3⟩
      exact h3
  | cons b bs ih =>
    simp only [containsSub, Bool.or_eq_true, prefixAt_iff, ih]
    constructor
    · rintro (⟨t, ht⟩ | ⟨pre, post, h⟩)
      · exact ⟨[], t, by simpa using ht⟩
      · exact ⟨b :: pre, post, by simp [h]⟩
    · rintro ⟨pre, post, h⟩
      cases pre with
      | nil =>
        left
        exact ⟨post, by simpa using h⟩
      | cons p ps =>
        right
        rw [List.cons_append, List.cons_append] at h
        injection h with h1 h2
        subst h1
        exact ⟨ps, post, h2⟩

/-- String version of containsSub_iff, matching the JavaScript includes call. -/
theorem strIncludes_iff (hay needle : String) :
    strIncludes hay needle = true ↔ ∃ pre post, hay.data = pre ++ needle.data ++ post :=
  containsSub_iff needle.data hay.data

/-- With all three filters empty the filter predicate accepts every insight. -/
theorem filtered_all_empty (v : String) (base : List Insight) :
    filteredInsights ⟨"", "", "", v, base⟩ = base := by
  unfold filteredInsights
  apply List.filter_eq_self.mpr
  intro a _
  simp [insightMatches, matchesSearch, matchesStatus, matchesType]

/-- Claim C1: membership in filteredInsights() is exactly the conjunction of
the search, status and type predicates described by the specification. -/
theorem filteredInsights_mem_iff (s : DashboardState) (i : Insight) :
    i ∈ filteredInsights s ↔ i ∈ s.insights ∧ MatchesSpec s i := by
  unfold filteredInsights MatchesSpec ContainsCI
  rw [List.mem_filter]
  simp only [insightMatches, matchesSearch, matchesStatus, matchesType,
    Bool.and_eq_true, Bool.or_eq_true, beq_iff_eq, Bool.not_eq_true',
    strIncludes_iff, and_assoc, or_assoc]

/-- Claim C5: for every base sequence and filter state, filteredInsights() is a
subsequence of the base sequence (order preserved, no re-sorting), and with all
three filters empty it returns the full base sequence unchanged. -/
theorem filteredInsights_sublist (q st ty v : String) (base : List Insight) :
    List.Sublist (filteredInsights ⟨q, st, ty, v, base⟩) base ∧
    (q = "" → st = "" → ty = "" → filteredInsights ⟨q, st, ty, v, base⟩ = base) := by
  constructor
  · exact List.filter_sublist base
  · intro h1 h2 h3
    subst h1
    subst h2
    subst h3
    exact filtered_all_empty v base

/-- Witness for filteredInsights_sublist at a concrete state. -/
theorem filteredInsights_sublist_witness :
    List.Sublist (filteredInsights ⟨"", "", "", "grid", [insA, insB]⟩) [insA, insB] ∧
    filteredInsights ⟨"", "", "", "grid", [insA, insB]⟩ = [insA, insB] :=
  ⟨(filteredInsights_sublist "" "" "" "grid" [insA, insB]).1,
   (filteredInsights_sublist "" "" "" "grid" [insA, insB]).2 rfl rfl rfl⟩

/-- Claim C10: narrowing a filter only removes results.  With search and type
fixed, any non-empty status filter yields a subsequence of the empty-status
result; symmetrically for the type filter. -/
theorem filteredInsights_narrowing (q st ty v : String) (base : List Insight) :
    (st ≠ "" → List.Sublist (filteredInsights ⟨q, st, ty, v, base⟩)
      (filteredInsights ⟨q, "", ty, v, base⟩)) ∧
    (ty ≠ "" → List.Sublist (filteredInsights ⟨q, st, ty, v, base⟩)
      (filteredInsights ⟨q, st, "", v, base⟩)) := by
  constructor
  · intro _
    apply List.monotone_filter_right
    intro i hi
    simp only [insightMatches, matchesSearch, matchesStatus, matchesType,
      Bool.and_eq_true, Bool.or_eq_true, beq_iff_eq] at hi ⊢
    tauto
  · intro _
    apply List.monotone_filter_right
    intro i hi
    simp only [insightMatches, matchesSearch, matchesStatus, matchesType,
      Bool.and_eq_true, Bool.or_eq_true, beq_iff_eq] at hi ⊢
    tauto

/-- Witness for filteredInsights_narrowing at concrete filters. -/
theorem filteredInsights_narrowing_witness :
    List.Sublist (filteredInsights ⟨"", "live", "", "grid", [insA, insB]⟩)
      (filteredInsights ⟨"", "", "", "grid", [insA, insB]⟩) ∧
    List.Sublist (filteredInsights ⟨"", "", "static", "grid", [insA, insB]⟩)
      (filteredInsights ⟨"", "", "", "grid", [insA, insB]⟩) :=
  ⟨(filteredInsights_narrowing "" "live" "" "grid" [insA, insB]).1 (by decide),
   (filteredInsights_narrowing "" "" "static" "grid" [insA, insB]).2 (by decide)⟩

/-- Claim C4: stats() is computed over the full base sequence only (no filter
setting changes it), its six counters are the stated counts, and on the
two-record example it returns total 2, live 1, review 0, dynamic 1,
withCta 1, retired 1. -/
theorem stats_full_base (base : List Insight) (q1 s1 t1 v1 q2 s2 t2 v2 : String) :
    stats ⟨q1, s1, t1, v1, base⟩ = stats ⟨q2, s2, t2, v2, base⟩ ∧
    stats ⟨q1, s1, t1, v1, base⟩ =
      { total := base.length,
        live := base.countP (fun i => i.status == "live"),
        review := base.countP (fun i => i.status == "review"),
        dynamic := base.countP (fun i => i.isDynamic),
        withCta := base.countP (fun i => i.hasCta),
        retired := base.countP (fun i => i.status == "retired") } ∧
    stats ⟨"q", "live", "static", "list", [insA, insB]⟩ =
      { total := 2, live := 1, review := 0, dynamic := 1, withCta := 1, retired := 1 } := by
  refine ⟨rfl, ?_, by decide⟩
  simp [stats, List.countP_eq_length_filter]

/-- Claim C9: viewMode is purely presentational; two states differing only in
viewMode produce identical filteredInsights(), stats() and exportToCSV() text. -/
theorem viewMode_noninterference (q st ty v1 v2 : String) (base : List Insight) :
    filteredInsights ⟨q, st, ty, v1, base⟩ = filteredInsights ⟨q, st, ty, v2, base⟩ ∧
    stats ⟨q, st, ty, v1, base⟩ = stats ⟨q, st, ty, v2, base⟩ ∧
    exportToCSV ⟨q, st, ty, v1, base⟩ = exportToCSV ⟨q, st, ty, v2, base⟩ :=
  ⟨rfl, rfl, rfl⟩

/-- Counterexample to claim C2: with an empty filtered set exportToCSV() is not
an error-free no-op; deriving the headers from the first row evaluates
`Object.keys(undefined)`, which throws a TypeError. -/
theorem exportToCSV_empty_raises_cex :
    filteredInsights ⟨"", "", "", "grid", []⟩ = [] ∧
    exportToCSV ⟨"", "", "", "grid", []⟩ = Except.error JsError.typeError :=
  ⟨rfl, rfl⟩

/-- Claim C2 as amended: invoking exportToCSV() on an empty filtered set
produces no CSV text (so no file), but raises a TypeError rather than
returning silently. -/
theorem exportToCSV_empty_raises (s : DashboardState)
    (h : filteredInsights s = []) :
    exportToCSV s = Except.error JsError.typeError := by
  unfold exportToCSV
  rw [h]
  rfl

/-- Witness for exportToCSV_empty_raises at a concrete state. -/
theorem exportToCSV_empty_raises_witness :
    exportToCSV ⟨"zzz", "", "", "list", []⟩ = Except.error JsError.typeError :=
  exportToCSV_empty_raises ⟨"zzz", "", "", "list", []⟩ rfl

/-- Claim C3: a string field is quoted with inner quotes doubled exactly when
it contains a comma, a quote or a newline, and emitted unchanged otherwise;
the CSV text is the unquoted comma-joined header line followed by the rows,
separated by single newlines; and the round-trip example yields the quoted
Content field and the unquoted Dynamic Variables field. -/
theorem csv_quoting_rule (v vm : String) (i : Insight) (rest : List Insight) :
    ((',' ∈ v.data ∨ '"' ∈ v.data ∨ '\n' ∈ v.data) →
      csvEscape v = "\"" ++ doubleQuotes v ++ "\"") ∧
    (¬(',' ∈ v.data ∨ '"' ∈ v.data ∨ '\n' ∈ v.data) → csvEscape v = v) ∧
    exportToCSV ⟨"", "", "", vm, i :: rest⟩ =
      Except.ok (String.intercalate "\n"
        (String.intercalate "," csvHeaders ::
          (i :: rest).map (fun j => String.intercalate "," ((rowValues j).map renderValue)))) ∧
    csvEscape (removeCRs (replaceNewlines "Hello, \"World\"\nLine2")) =
      "\"Hello, \"\"World\"\" Line2\"" ∧
    csvEscape (String.intercalate "; " ["x", "y"]) = "x; y" := by
  refine ⟨?_, ?_, ?_, by decide, by decide⟩
  · intro h
    unfold csvEscape
    rw [if_pos]
    simpa [or_assoc] using h
  · intro h
    unfold csvEscape
    rw [if_neg]
    simpa [and_assoc] using h
  · unfold exportToCSV
    rw [filtered_all_empty, List.map_cons]
    simp only [List.map_cons, List.map_map]
    rfl

/-- Witness for csv_quoting_rule: both quoting branches at concrete values. -/
theorem csv_quoting_rule_witness :
    csvEscape "a,b" = "\"" ++ doubleQuotes "a,b" ++ "\"" ∧ csvEscape "plain" = "plain" :=
  ⟨(csv_quoting_rule "a,b" "grid" bareInsight []).1 (by decide),
   (csv_quoting_rule "plain" "grid" bareInsight []).2.1 (by decide)⟩

/-- Claim C6: every CSV row has the fixed column order with the stated field
derivations, absent optional fields are treated as empty, and a record with
all optional fields absent exports without error. -/
theorem csv_row_fields (i : Insight) :
    rowValues i =
      [CsvValue.str i.id,
       CsvValue.str i.status,
       CsvValue.num i.priority,
       CsvValue.str (if i.isDynamic then "Dynamic" else "Static"),
       CsvValue.str (removeCRs (replaceNewlines i.content)),
       CsvValue.str (String.intercalate "; " (i.templateKeys.getD [])),
       CsvValue.str ((i.cta.map CTA.text).getD ""),
       CsvValue.str ((i.cta.map CTA.url).getD ""),
       CsvValue.str (String.intercalate "; " (i.requiredContext.getD [])),
       CsvValue.str (if i.requiresPrimaryUser then "Yes" else "No"),
       CsvValue.str (if i.requiresProfileComplete then "Yes" else "No"),
       CsvValue.str (if i.hasCta then "Yes" else "No")] ∧
    csvHeaders = ["ID", "Status", "Priority", "Type", "Content", "Dynamic Variables",
      "CTA Text", "CTA URL", "Required Context", "Requires Primary User",
      "Requires Profile Complete", "Has CTA"] ∧
    exportToCSV ⟨"", "", "", "grid", [bareInsight]⟩ =
      Except.ok ("ID,Status,Priority,Type,Content,Dynamic Variables,CTA Text,CTA URL,Required Context,Requires Primary User,Requires Profile Complete,Has CTA\nB1,draft,0,Static,plain text,,,,,No,No,No") := by
  refine ⟨?_, rfl, rfl⟩
  rcases i with ⟨iid, icontent, istatus, ipriority, idyn, ihascta, icta, ictx, irpu, irpc, itks⟩
  cases icta <;> cases ictx <;> cases itks <;> rfl

/-- Counterexample to claim C7: an environment where the codebase location is
found but the expected definitions file is missing; the resolver returns the
empty sequence, not the built-in fallback. -/
theorem resolver_missing_files_cex :
    findCodebasePath envC7 = some "/cb" ∧
    envC7.pathExists (definitions_file "/cb") = false ∧
    extract_smart_facts_from_codebase envC7 = Except.ok [] ∧
    get_hardcoded_insights ≠ ([] : List Insight) :=
  ⟨rfl, rfl, rfl, by decide⟩

/-- Claim C7 as amended: when a source location is found, an extraction
exception of any kind is caught and the fallback returned, but missing
expected sub-resource files make extraction return the empty sequence without
raising, and the resolver then returns that empty sequence, not the fallback. -/
theorem resolver_extraction_failure (env : Env) (cp : String)
    (hfound : findCodebasePath env = some cp) :
    ((∃ e, extract_from_files env cp = Except.error e) →
      extract_smart_facts_from_codebase env = Except.ok get_hardcoded_insights) ∧
    (¬(env.pathExists (definitions_file cp) = true ∧
        env.pathExists (templates_file cp) = true) →
      extract_smart_facts_from_codebase env = Except.ok []) := by
  constructor
  · rintro ⟨e, he⟩
    simp only [extract_smart_facts_from_codebase, hfound, he]
  · intro hmissing
    have hcond : (env.pathExists (definitions_file cp) &&
        env.pathExists (templates_file cp)) ≠ true := by
      simp only [Ne, Bool.and_eq_true]
      exact hmissing
    have hext : extract_from_files env cp = Except.ok [] := by
      unfold extract_from_files
      rw [if_neg hcond]
    simp only [extract_smart_facts_from_codebase, hfound, hext]

/-- Witness for resolver_extraction_failure: a read failure yields the
fallback; missing expected files yield the empty sequence. -/
theorem resolver_extraction_failure_witness :
    extract_smart_facts_from_codebase envReadFail = Except.ok get_hardcoded_insights ∧
    extract_smart_facts_from_codebase envC7 = Except.ok [] :=
  ⟨(resolver_extraction_failure envReadFail "/cb" rfl).1 ⟨"boom", rfl⟩,
   (resolver_extraction_failure envC7 "/cb" rfl).2 (by decide)⟩

/-- Claim C8: the resolver never lets an exception escape (its result is always
ok), and with no environment override and no existing candidate location it
returns exactly the built-in fallback sequence. -/
theorem resolver_never_raises (env : Env) :
    (∃ ins, extract_smart_facts_from_codebase env = Except.ok ins) ∧
    (env.codebasePathEnv = none → (∀ p, env.pathExists p = false) →
      extract_smart_facts_from_codebase env = Except.ok get_hardcoded_insights) := by
  constructor
  · cases hf : findCodebasePath env with
    | none =>
      exact ⟨get_hardcoded_insights, by simp only [extract_smart_facts_from_codebase, hf]⟩
    | some cp =>
      cases he : extract_from_files env cp with
      | ok ins =>
        exact ⟨ins, by simp only [extract_smart_facts_from_codebase, hf, he]⟩
      | error e =>
        exact ⟨get_hardcoded_insights, by simp only [extract_smart_facts_from_codebase, hf, he]⟩
  · intro hnone hnoexist
    have hf : findCodebasePath env = none := by
      unfold findCodebasePath candidate_paths
      rw [hnone]
      simp [List.find?, hnoexist]
    simp only [extract_smart_facts_from_codebase, hf]

/-- Witness for resolver_never_raises at the environment with no source. -/
theorem resolver_never_raises_witness :
    extract_smart_facts_from_codebase envNoSource = Except.ok get_hardcoded_insights :=
  (resolver_never_raises envNoSource).2 rfl (fun _ => rfl)

end SmartFacts
